import Mathlib

/-!
Verification of the NYC weather data-preparation pipeline
(`data_preparation.py`) against its design specification.

Tables are modelled as lists of rows; numeric columns are exact rationals
(the script's float arithmetic is modelled exactly); a column that may be
missing for a row (pandas `NaN`, or a column not yet created) is an
`Option`.  The pandas timestamp built from `(year, month, day)` is modelled
by the injective numeric key `year*10000 + month*100 + day`, and
`pd.to_datetime` raising on an invalid calendar date is modelled by
`Except.error`.  `groupby(sort=True)` is modelled as: deduplicate the key
column, sort it ascending, and aggregate each group; `nlargest(n, keep =
first)` is modelled as a stable descending sort followed by `take n`.
-/

namespace DataPrep

/-- Conversion factor mph → m/s, `MPH_TO_MS = 0.44704` in the script. -/
def MPH_TO_MS : ℚ := 44704 / 100000

/-- The known site codes, `AIRPORTS = ['EWR', 'JFK', 'LGA']`. -/
def AIRPORTS : List String := ["EWR", "JFK", "LGA"]

/-- One row of the weather table.  `wind_speed` is `none` when the raw
measurement is missing (`NaN`); `wind_speed_ms` and `date` are `none`
until the corresponding derived column has been created. -/
structure Row where
  origin : String
  year : Nat
  month : Nat
  day : Nat
  wind_speed : Option ℚ
  wind_speed_ms : Option ℚ := none
  date : Option Nat := none
deriving DecidableEq, Repr

/-- `load_and_clean_data`: keep rows whose `origin` is a known airport,
drop rows with missing `wind_speed`, then derive
`wind_speed_ms = wind_speed * MPH_TO_MS`. -/
def load_and_clean_data (raw : List Row) : List Row :=
  let df1 := raw.filter (fun r => AIRPORTS.contains r.origin)
  let df2 := df1.filter (fun r => r.wind_speed.isSome)
  df2.map (fun r => { r with wind_speed_ms := r.wind_speed.map (· * MPH_TO_MS) })

/-- The spec's alternative reading of the cleaning stage: the two row
filters applied in the opposite order (missing-value filter first, then
the known-site filter), with the same derived column. -/
def clean_filters_swapped (raw : List Row) : List Row :=
  let df1 := raw.filter (fun r => r.wind_speed.isSome)
  let df2 := df1.filter (fun r => AIRPORTS.contains r.origin)
  df2.map (fun r => { r with wind_speed_ms := r.wind_speed.map (· * MPH_TO_MS) })

/-- Numeric key of the timestamp `pd.to_datetime` builds from
`(year, month, day)`; injective on valid calendar dates and ordered like
them. -/
def mkDate (y m d : Nat) : Nat := y * 10000 + m * 100 + d

/-- Gregorian leap-year rule used by the timestamp library. -/
def isLeapYear (y : Nat) : Bool := (y % 4 == 0 && y % 100 != 0) || (y % 400 == 0)

/-- Number of days of month `m` in year `y`. -/
def daysInMonth (y m : Nat) : Nat :=
  if m == 2 then (if isLeapYear y then 29 else 28)
  else if m == 4 || m == 6 || m == 9 || m == 11 then 30
  else 31

/-- Whether a row's `(year, month, day)` triple forms a valid calendar
date; `pd.to_datetime` raises on a row where this fails. -/
def validRowDate (r : Row) : Bool :=
  decide (1 ≤ r.month) && decide (r.month ≤ 12) &&
    decide (1 ≤ r.day) && decide (r.day ≤ daysInMonth r.year r.month)

/-- Arithmetic mean of a list of rationals. -/
def mean (xs : List ℚ) : ℚ := xs.sum / xs.length

/-- The `wind_speed_ms` column of a group, skipping missing entries
(pandas `mean` skips `NaN`). -/
def groupSpeeds (rows : List Row) : List ℚ := rows.filterMap (fun r => r.wind_speed_ms)

/-- The `(date, origin)` grouping key of a row. -/
def rowKey (r : Row) : Nat × String := (mkDate r.year r.month r.day, r.origin)

/-- Ascending order on `(date, origin)` keys, date first then site code,
as `groupby(['date', 'origin'])` sorts its keys. -/
def dailyKeyLe (a b : Nat × String) : Prop := a.1 < b.1 ∨ (a.1 = b.1 ∧ a.2 ≤ b.2)

instance : DecidableRel dailyKeyLe := fun a b => by unfold dailyKeyLe; infer_instance

/-- The distinct `(date, origin)` keys of a table, sorted ascending. -/
def dailyKeys (df : List Row) : List (Nat × String) :=
  List.insertionSort dailyKeyLe ((df.map rowKey).dedup)

/-- The rows of `df` in the group of key `k`. -/
def dailyGroup (df : List Row) (k : Nat × String) : List Row :=
  df.filter (fun r => decide (rowKey r = k))

/-- One row of the daily output: columns `Date`, `Airport`,
`Wind_Speed_ms`. -/
structure DailyRecord where
  Date : Nat
  Airport : String
  Wind_Speed_ms : ℚ
deriving DecidableEq, Repr

/-- `calculate_daily_means`: builds the `date` column in place on its
input (`df['date'] = pd.to_datetime(...)`), which fails the run when some
row has an invalid calendar date, then groups by `(date, origin)` and
takes the mean of `wind_speed_ms` per group.  The result is the pair of
the (mutated) input table and the aggregated table. -/
def calculate_daily_means (df : List Row) :
    Except String (List Row × List DailyRecord) :=
  if df.all validRowDate then
    Except.ok
      (df.map (fun r => { r with date := some (mkDate r.year r.month r.day) }),
       (dailyKeys df).map (fun k =>
         { Date := k.1, Airport := k.2,
           Wind_Speed_ms := mean (groupSpeeds (dailyGroup df k)) }))
  else Except.error "InvalidDateError"

/-- One row of the pivoted monthly output: a month number, and for each
site column the cell holding that site's mean (or missing). -/
structure MonthlyRow where
  Month : Nat
  cells : List (String × Option ℚ)
deriving DecidableEq, Repr

/-- The rows of `df` in the `(month, origin)` group. -/
def monthGroup (df : List Row) (m : Nat) (s : String) : List Row :=
  df.filter (fun r => decide (r.month = m ∧ r.origin = s))

/-- `calculate_monthly_means`: group by `(month, origin)`, mean of
`wind_speed_ms` per group, then pivot to one row per distinct month
(ascending) with one column per distinct site (ascending); a cell of a
`(month, origin)` pair with no observations is missing, never zero. -/
def calculate_monthly_means (df : List Row) : List MonthlyRow :=
  let months := List.insertionSort (· ≤ ·) ((df.map (fun r => r.month)).dedup)
  let sites := List.insertionSort (· ≤ ·) ((df.map (fun r => r.origin)).dedup)
  months.map (fun m =>
    { Month := m,
      cells := sites.map (fun s =>
        (s, if (monthGroup df m s).isEmpty then none
            else some (mean (groupSpeeds (monthGroup df m s))))) })

/-- One row of the top-N output: columns `Date`, `Wind_Speed_ms`,
`Airport`. -/
structure TopDayRecord where
  Date : Nat
  Wind_Speed_ms : ℚ
  Airport : String
deriving DecidableEq, Repr

/-- The rows of a table whose date key equals `k`. -/
def dateGroup (df : List Row) (k : Nat) : List Row :=
  df.filter (fun r => decide (mkDate r.year r.month r.day = k))

/-- The distinct date keys of a table, in ascending order. -/
def dateKeys (df : List Row) : List Nat :=
  List.insertionSort (· ≤ ·) ((df.map (fun r => mkDate r.year r.month r.day)).dedup)

/-- Per-date mean wind speed: one pair per distinct date, ascending by
date, value the group mean (`groupby('date')['wind_speed_ms'].mean()`). -/
def siteDaily (adf : List Row) : List (Nat × ℚ) :=
  (dateKeys adf).map (fun k => (k, mean (groupSpeeds (dateGroup adf k))))

/-- Comparison behind `nlargest`: a row comes first exactly when its
value is at least the other's, so the stable sort is descending by value
and keeps first occurrences among ties. -/
def topLe (a b : Nat × ℚ) : Prop := b.2 ≤ a.2

instance : DecidableRel topLe := fun a b => by unfold topLe; infer_instance

/-- Strict descending-value order refined by ascending date among equal
values; the shape `nlargest(keep = first)` produces from an
ascending-date input with distinct dates. -/
def topLex (a b : Nat × ℚ) : Prop := b.2 < a.2 ∨ (b.2 = a.2 ∧ a.1 < b.1)

/-- The per-site part of the ranker: build dates (failing the run on an
invalid one), take the per-date means, stable-sort descending by mean,
keep the first `top_n` rows, and attach the `Airport` column. -/
def top_from_site_rows (adf : List Row) (airport : String) (top_n : Nat) :
    Except String (List TopDayRecord) :=
  if adf.all validRowDate then
    Except.ok (((List.insertionSort topLe (siteDaily adf)).take top_n).map
      (fun p => { Date := p.1, Wind_Speed_ms := p.2, Airport := airport }))
  else Except.error "InvalidDateError"

/-- `find_top_windiest_days`: restrict the table to one airport (on a
copy) and rank that airport's days. -/
def find_top_windiest_days (df : List Row) (airport : String) (top_n : Nat) :
    Except String (List TopDayRecord) :=
  top_from_site_rows (df.filter (fun r => r.origin == airport)) airport top_n

/-- `prepare_data_for_tableau`: clean once, then run the three
aggregators on the one shared table (which the daily step has mutated by
adding the `date` column), with the ranking defaults `LGA` and
`top_n = 20`. -/
def prepare_data_for_tableau (raw : List Row) :
    Except String (List DailyRecord × List MonthlyRow × List TopDayRecord) := do
  let df := load_and_clean_data raw
  let p ← calculate_daily_means df
  let monthly := calculate_monthly_means p.1
  let top ← find_top_windiest_days p.1 "LGA" 20
  return (p.2, monthly, top)

/-- A concrete raw row with a known site, a present wind speed and a
valid date. -/
def sampleRow : Row :=
  { origin := "JFK", year := 2013, month := 1, day := 1, wind_speed := some 10 }

/-- A concrete row whose `(year, month, day)` is not a valid calendar
date (February 30). -/
def badDateRow : Row :=
  { origin := "JFK", year := 2013, month := 2, day := 30, wind_speed := some 10 }

end DataPrep

namespace DataPrep

/-- C1: the cleaning stage returns exactly the rows whose site code is in
{EWR, JFK, LGA} and whose wind speed is present, each augmented with
`wind_speed_ms = wind_speed * 0.44704`; consequently every returned row
has a known site code and a present `wind_speed_ms` equal to its raw
speed times the exact constant 44704/100000. -/
theorem C1_clean_correct (raw : List Row) :
    load_and_clean_data raw =
      (raw.filter (fun r => AIRPORTS.contains r.origin && r.wind_speed.isSome)).map
        (fun r => { r with wind_speed_ms := r.wind_speed.map (· * MPH_TO_MS) }) ∧
    ∀ r ∈ load_and_clean_data raw,
      r.origin ∈ AIRPORTS ∧
      ∃ v : ℚ, r.wind_speed = some v ∧ r.wind_speed_ms = some (v * (44704 / 100000)) := by
  constructor
  · simp only [load_and_clean_data, List.filter_filter]
    rw [List.filter_congr (fun r _ => Bool.and_comm _ _)]
  · intro r hr
    simp only [load_and_clean_data, List.mem_map, List.mem_filter] at hr
    obtain ⟨s, ⟨⟨hs1, hs2⟩, hs3⟩, rfl⟩ := hr
    obtain ⟨v, hv⟩ := Option.isSome_iff_exists.mp hs3
    refine ⟨List.mem_of_elem_eq_true hs2, v, by simpa using hv, ?_⟩
    simp [hv, MPH_TO_MS]

/-- Every row of a cleaned table carries a present `wind_speed_ms`. -/
lemma clean_isSome (raw : List Row) :
    ∀ r ∈ load_and_clean_data raw, r.wind_speed_ms.isSome = true := by
  intro r hr
  simp only [load_and_clean_data, List.mem_map, List.mem_filter] at hr
  obtain ⟨s, ⟨hs1, hs2⟩, rfl⟩ := hr
  simpa using hs2

/-- On a list of rows whose `wind_speed_ms` is present, collecting the
present speeds is just reading the column. -/
lemma groupSpeeds_eq_map (l : List Row) (h : ∀ r ∈ l, r.wind_speed_ms.isSome = true) :
    groupSpeeds l = l.map (fun r => r.wind_speed_ms.getD 0) := by
  induction l with
  | nil => rfl
  | cons a t ih =>
    obtain ⟨v, hv⟩ := Option.isSome_iff_exists.mp (h a (List.mem_cons_self a t))
    have ht := ih (fun r hr => h r (List.mem_cons_of_mem _ hr))
    simp only [groupSpeeds, List.filterMap_cons, hv, List.map_cons] at ht ⊢
    simp [ht, hv]

/-- The keys actually attached to the daily output rows are exactly the
sorted distinct keys the group-by produced. -/
lemma daily_out_keys (df : List Row) :
    ((dailyKeys df).map (fun k =>
        ({ Date := k.1, Airport := k.2,
           Wind_Speed_ms := mean (groupSpeeds (dailyGroup df k)) } : DailyRecord))).map
      (fun rec => (rec.Date, rec.Airport)) = dailyKeys df := by
  rw [List.map_map]
  exact (List.map_congr_left (fun k _ => rfl)).trans (List.map_id _)

/-- C6: if some row of the daily aggregator's input has an invalid
`(year, month, day)` calendar date, the aggregation fails the run with
`InvalidDateError` instead of silently dropping the row. -/
theorem C6_invalid_date_error (df : List Row)
    (h : ∃ r ∈ df, validRowDate r = false) :
    calculate_daily_means df = Except.error "InvalidDateError" := by
  obtain ⟨r, hr, hv⟩ := h
  rw [calculate_daily_means, if_neg]
  intro hall
  rw [List.all_eq_true] at hall
  exact absurd (hall r hr) (by simp [hv])

/-- Witness for C6 at the concrete row (2013, February 30). -/
theorem C6_witness :
    (∃ r ∈ [badDateRow], validRowDate r = false) ∧
      calculate_daily_means [badDateRow] = Except.error "InvalidDateError" :=
  ⟨⟨badDateRow, List.mem_singleton.mpr rfl, by decide⟩,
    C6_invalid_date_error _ ⟨badDateRow, List.mem_singleton.mpr rfl, by decide⟩⟩

/-- C2: on a cleaned table whose dates are all valid, the daily
aggregation succeeds; it has one output row per distinct
`(date, origin)` key of the input (no key repeated, keys in output and
input coincide, count equal to the number of distinct keys), and each
output value is the arithmetic mean of `wind_speed_ms` over exactly the
input rows with that date and site. -/
theorem C2_daily_means (raw : List Row)
    (h : (load_and_clean_data raw).all validRowDate = true) :
    ∃ df2 out, calculate_daily_means (load_and_clean_data raw) = Except.ok (df2, out) ∧
      out.length = (((load_and_clean_data raw).map rowKey).dedup).length ∧
      (out.map (fun rec => (rec.Date, rec.Airport))).Nodup ∧
      (∀ k : Nat × String,
        k ∈ out.map (fun rec => (rec.Date, rec.Airport)) ↔
          k ∈ (load_and_clean_data raw).map rowKey) ∧
      ∀ rec ∈ out, rec.Wind_Speed_ms =
        mean (((load_and_clean_data raw).filter
            (fun r => decide (mkDate r.year r.month r.day = rec.Date ∧
              r.origin = rec.Airport))).map
          (fun r => r.wind_speed_ms.getD 0)) := by
  refine ⟨_, _, by rw [calculate_daily_means, if_pos h], ?_, ?_, ?_, ?_⟩
  · rw [List.length_map, dailyKeys, (List.perm_insertionSort _ _).length_eq]
  · rw [daily_out_keys]
    exact ((List.perm_insertionSort _ _).nodup_iff).mpr (List.nodup_dedup _)
  · intro k
    rw [daily_out_keys, dailyKeys, (List.perm_insertionSort _ _).mem_iff, List.mem_dedup]
  · intro rec hrec
    rw [List.mem_map] at hrec
    obtain ⟨k, hk, rfl⟩ := hrec
    show mean (groupSpeeds (dailyGroup (load_and_clean_data raw) k)) = _
    have hgrp : dailyGroup (load_and_clean_data raw) k =
        (load_and_clean_data raw).filter
          (fun r => decide (mkDate r.year r.month r.day = k.1 ∧ r.origin = k.2)) := by
      refine List.filter_congr (fun r _ => ?_)
      exact decide_eq_decide.mpr Prod.ext_iff
    rw [hgrp, groupSpeeds_eq_map]
    intro r hr
    exact clean_isSome raw r (List.mem_of_mem_filter hr)

/-- Witness for C2 at a one-row raw table. -/
theorem C2_witness :
    (load_and_clean_data [sampleRow]).all validRowDate = true ∧
      (∃ df2 out, calculate_daily_means (load_and_clean_data [sampleRow]) =
          Except.ok (df2, out) ∧
        out.length = (((load_and_clean_data [sampleRow]).map rowKey).dedup).length ∧
        (out.map (fun rec => (rec.Date, rec.Airport))).Nodup ∧
        (∀ k : Nat × String,
          k ∈ out.map (fun rec => (rec.Date, rec.Airport)) ↔
            k ∈ (load_and_clean_data [sampleRow]).map rowKey) ∧
        ∀ rec ∈ out, rec.Wind_Speed_ms =
          mean (((load_and_clean_data [sampleRow]).filter
              (fun r => decide (mkDate r.year r.month r.day = rec.Date ∧
                r.origin = rec.Airport))).map
            (fun r => r.wind_speed_ms.getD 0))) :=
  ⟨by decide, C2_daily_means [sampleRow] (by decide)⟩

/-- C5 fails on the code: the daily aggregator mutates the cleaned table
in place (it creates the `date` column on its input), so the table after
running it differs from the table before. -/
theorem C5_counterexample :
    (calculate_daily_means (load_and_clean_data [sampleRow])).toOption.map Prod.fst ≠
      some (load_and_clean_data [sampleRow]) := by
  intro hcontra
  have hall : (load_and_clean_data [sampleRow]).all validRowDate = true := by decide
  rw [calculate_daily_means, if_pos hall] at hcontra
  have hc : load_and_clean_data [sampleRow] =
      [{ sampleRow with wind_speed_ms := some (10 * MPH_TO_MS) }] := rfl
  simp only [Except.toOption, Option.map_some] at hcontra
  have h3 := congrArg (fun l => l.map Row.date) (Option.some.inj hcontra)
  rw [hc] at h3
  simp [List.map_map, sampleRow] at h3

/-- C5 amended: the daily aggregator's only in-place effect on the
cleaned table is to add the derived `date` column — row count and every
pre-existing column are unchanged, and afterwards every row carries a
`date` value. -/
theorem C5_amended_daily_adds_date_only (raw : List Row)
    (h : (load_and_clean_data raw).all validRowDate = true) :
    ∃ df2 out, calculate_daily_means (load_and_clean_data raw) = Except.ok (df2, out) ∧
      df2.map (fun r => { r with date := none }) =
        (load_and_clean_data raw).map (fun r => { r with date := none }) ∧
      df2.length = (load_and_clean_data raw).length ∧
      ∀ r ∈ df2, r.date.isSome = true := by
  refine ⟨_, _, by rw [calculate_daily_means, if_pos h], ?_, List.length_map _ _, ?_⟩
  · rw [List.map_map]
    exact List.map_congr_left (fun r _ => rfl)
  · intro r hr
    rw [List.mem_map] at hr
    obtain ⟨s, hs, rfl⟩ := hr
    rfl

/-- Witness for the amended C5 at a one-row raw table. -/
theorem C5_amended_witness :
    (load_and_clean_data [sampleRow]).all validRowDate = true ∧
      (∃ df2 out, calculate_daily_means (load_and_clean_data [sampleRow]) =
          Except.ok (df2, out) ∧
        df2.map (fun r => { r with date := none }) =
          (load_and_clean_data [sampleRow]).map (fun r => { r with date := none }) ∧
        df2.length = (load_and_clean_data [sampleRow]).length ∧
        ∀ r ∈ df2, r.date.isSome = true) :=
  ⟨by decide, C5_amended_daily_adds_date_only [sampleRow] (by decide)⟩

/-- A list sorted weakly with no duplicates is sorted strictly. -/
lemma pairwise_lt_of_nodup_sorted {α : Type} [LinearOrder α] {l : List α}
    (hs : l.Pairwise (· ≤ ·)) (hn : l.Nodup) : l.Pairwise (· < ·) :=
  (hs.and hn).imp (fun h => lt_of_le_of_ne h.1 h.2)

/-- Projecting the first component back out of a key-value pairing. -/
lemma map_fst_map_pair {α β : Type} (l : List α) (f : α → β) :
    (l.map (fun a => (a, f a))).map Prod.fst = l := by
  rw [List.map_map]
  exact (List.map_congr_left (fun a _ => rfl)).trans (List.map_id _)

/-- The `Month` column of the monthly output is the sorted list of
distinct months of the input. -/
lemma monthly_out_months (df : List Row) :
    (calculate_monthly_means df).map (fun row => row.Month) =
      List.insertionSort (· ≤ ·) ((df.map (fun r => r.month)).dedup) := by
  simp only [calculate_monthly_means]
  rw [List.map_map]
  exact (List.map_congr_left (fun m _ => rfl)).trans (List.map_id _)

/-- C4: the monthly aggregation has one row per distinct month of the
cleaned input, in strictly ascending month order; each row has one cell
per distinct site of the input (no site column repeated); a cell whose
`(month, site)` pair has at least one observation holds the mean of
exactly those observations, and a cell with no observation is missing
(`none`), never zero. -/
theorem C4_monthly_means (raw : List Row) :
    ((calculate_monthly_means (load_and_clean_data raw)).map (fun row => row.Month)).Pairwise
      (· < ·) ∧
    (∀ m : Nat,
      m ∈ (calculate_monthly_means (load_and_clean_data raw)).map (fun row => row.Month) ↔
        m ∈ (load_and_clean_data raw).map (fun r => r.month)) ∧
    ∀ row ∈ calculate_monthly_means (load_and_clean_data raw),
      ((row.cells.map Prod.fst).Nodup ∧
        ∀ s : String, s ∈ row.cells.map Prod.fst ↔
          s ∈ (load_and_clean_data raw).map (fun r => r.origin)) ∧
      ∀ p ∈ row.cells,
        ((∃ r ∈ load_and_clean_data raw, r.month = row.Month ∧ r.origin = p.1) →
          p.2 = some (mean ((monthGroup (load_and_clean_data raw) row.Month p.1).map
            (fun r => r.wind_speed_ms.getD 0)))) ∧
        ((¬ ∃ r ∈ load_and_clean_data raw, r.month = row.Month ∧ r.origin = p.1) →
          p.2 = none) := by
  refine ⟨?_, ?_, ?_⟩
  · rw [monthly_out_months]
    exact pairwise_lt_of_nodup_sorted (List.sorted_insertionSort _ _)
      (((List.perm_insertionSort _ _).nodup_iff).mpr (List.nodup_dedup _))
  · intro m
    rw [monthly_out_months, (List.perm_insertionSort _ _).mem_iff, List.mem_dedup]
  · intro row hrow
    simp only [calculate_monthly_means, List.mem_map] at hrow
    obtain ⟨m, hm, rfl⟩ := hrow
    constructor
    · constructor
      · rw [map_fst_map_pair]
        exact ((List.perm_insertionSort _ _).nodup_iff).mpr (List.nodup_dedup _)
      · intro s
        rw [map_fst_map_pair, (List.perm_insertionSort _ _).mem_iff, List.mem_dedup]
    · intro p hp
      simp only [List.mem_map] at hp
      obtain ⟨s, hs, rfl⟩ := hp
      constructor
      · intro hex
        obtain ⟨r, hr, hr2⟩ := hex
        have hne : (monthGroup (load_and_clean_data raw) m s).isEmpty = false := by
          rcases hemp : (monthGroup (load_and_clean_data raw) m s).isEmpty with _ | _
          · rfl
          · exfalso
            rw [List.isEmpty_iff] at hemp
            have : r ∈ monthGroup (load_and_clean_data raw) m s := by
              rw [monthGroup, List.mem_filter]
              exact ⟨hr, decide_eq_true hr2⟩
            rw [hemp] at this
            exact List.not_mem_nil r this
        show (if (monthGroup (load_and_clean_data raw) m s).isEmpty then none
            else some (mean (groupSpeeds (monthGroup (load_and_clean_data raw) m s)))) = _
        rw [hne]
        simp only [Bool.false_eq_true, if_false]
        rw [groupSpeeds_eq_map]
        intro q hq
        exact clean_isSome raw q (List.mem_of_mem_filter hq)
      · intro hnex
        have hemp : monthGroup (load_and_clean_data raw) m s = [] := by
          rw [monthGroup, List.filter_eq_nil_iff]
          intro r hr hdec
          exact hnex ⟨r, hr, of_decide_eq_true hdec⟩
        show (if (monthGroup (load_and_clean_data raw) m s).isEmpty then none
            else some (mean (groupSpeeds (monthGroup (load_and_clean_data raw) m s)))) = _
        rw [hemp]
        rfl

instance : IsTotal (Nat × ℚ) topLe :=
  ⟨fun a b => le_total b.2 a.2⟩

instance : IsTrans (Nat × ℚ) topLe :=
  ⟨fun _ _ _ hab hbc => le_trans hbc hab⟩

/-- The distinct date keys are strictly ascending. -/
lemma dateKeys_lt (df : List Row) : (dateKeys df).Pairwise (· < ·) :=
  pairwise_lt_of_nodup_sorted (List.sorted_insertionSort _ _)
    (((List.perm_insertionSort _ _).nodup_iff).mpr (List.nodup_dedup _))

/-- The per-date mean table has strictly ascending dates. -/
lemma siteDaily_fst_lt (adf : List Row) :
    (siteDaily adf).Pairwise (fun a b => a.1 < b.1) :=
  List.pairwise_map.mpr (dateKeys_lt adf)

/-- Inserting a row whose date is below every date of a list that is
already in descending-value order refined by ascending date keeps that
order, because the insertion point is before every row of equal value. -/
lemma orderedInsert_topLex (a : Nat × ℚ) (ys : List (Nat × ℚ))
    (hys : ys.Pairwise topLex) (ha : ∀ b ∈ ys, a.1 < b.1) :
    (List.orderedInsert topLe a ys).Pairwise topLex := by
  induction ys with
  | nil => simp
  | cons b ys ih =>
    rw [List.orderedInsert]
    by_cases hab : topLe a b
    · rw [if_pos hab]
      replace hab : b.2 ≤ a.2 := hab
      refine List.Pairwise.cons ?_ hys
      intro c hc
      rcases List.mem_cons.mp hc with rfl | hc
      · rcases lt_or_eq_of_le hab with hlt | heq
        · exact Or.inl hlt
        · exact Or.inr ⟨heq, ha c (List.mem_cons_self _ _)⟩
      · have hbc := (List.pairwise_cons.mp hys).1 c hc
        rcases hbc with h1 | ⟨h1, _⟩
        · exact Or.inl (lt_of_lt_of_le h1 hab)
        · rcases lt_or_eq_of_le hab with hlt | heq
          · exact Or.inl (h1 ▸ hlt)
          · exact Or.inr ⟨h1.trans heq, ha c (List.mem_cons_of_mem _ hc)⟩
    · rw [if_neg hab]
      replace hab : ¬ b.2 ≤ a.2 := hab
      refine List.pairwise_cons.mpr ⟨?_, ih (List.pairwise_cons.mp hys).2
        (fun c hc => ha c (List.mem_cons_of_mem _ hc))⟩
      intro x hx
      rcases (List.mem_orderedInsert _).mp hx with rfl | hx
      · exact Or.inl (lt_of_not_le hab)
      · exact (List.pairwise_cons.mp hys).1 x hx

/-- Stability of the descending sort: sorting a strictly
ascending-by-date list descending by value yields the
descending-value, ascending-date-among-ties order. -/
lemma insertionSort_topLex (l : List (Nat × ℚ))
    (hl : l.Pairwise (fun a b => a.1 < b.1)) :
    (List.insertionSort topLe l).Pairwise topLex := by
  induction l with
  | nil => simp
  | cons a l ih =>
    rw [List.insertionSort]
    refine orderedInsert_topLex a _ (ih (List.pairwise_cons.mp hl).2) ?_
    intro b hb
    exact (List.pairwise_cons.mp hl).1 b (((List.perm_insertionSort topLe l).mem_iff).mp hb)

/-- Reading the `Date` column back off freshly built top-day records
gives the date keys. -/
lemma map_date_map_top (l : List (Nat × ℚ)) (site : String) :
    (l.map (fun p => (⟨p.1, p.2, site⟩ : TopDayRecord))).map (fun rec => rec.Date) =
      l.map Prod.fst := by
  rw [List.map_map]
  exact List.map_congr_left (fun p _ => rfl)

/-- C7: ranking a site that has no rows in the table returns the empty
result rather than an error. -/
theorem C7_empty_site (df : List Row) (site : String) (n : Nat)
    (h : ∀ r ∈ df, r.origin ≠ site) :
    find_top_windiest_days df site n = Except.ok [] := by
  have hfil : df.filter (fun r => r.origin == site) = [] := by
    rw [List.filter_eq_nil_iff]
    intro r hr
    simpa using h r hr
  unfold find_top_windiest_days
  rw [hfil]
  unfold top_from_site_rows
  simp [siteDaily, dateKeys]

/-- Witness for C7: a JFK-only table ranked at EWR. -/
theorem C7_witness :
    (∀ r ∈ [sampleRow], r.origin ≠ "EWR") ∧
      find_top_windiest_days [sampleRow] "EWR" 20 = Except.ok [] :=
  ⟨by decide, C7_empty_site [sampleRow] "EWR" 20 (by decide)⟩

/-- C3: on a cleaned input whose rows at the chosen site all have valid
dates, the ranker succeeds and returns exactly
`min n (number of distinct dates at that site)` rows, sorted descending
by mean speed, with no date repeated and the site code attached to every
row. -/
theorem C3_top_n (raw : List Row) (site : String) (n : Nat) (hn : 0 < n)
    (h : ((load_and_clean_data raw).filter (fun r => r.origin == site)).all
      validRowDate = true) :
    ∃ out, find_top_windiest_days (load_and_clean_data raw) site n = Except.ok out ∧
      out.length = min n
        ((((load_and_clean_data raw).filter (fun r => r.origin == site)).map
          (fun r => mkDate r.year r.month r.day)).dedup).length ∧
      out.Pairwise (fun a b => b.Wind_Speed_ms ≤ a.Wind_Speed_ms) ∧
      (out.map (fun rec => rec.Date)).Nodup ∧
      ∀ rec ∈ out, rec.Airport = site := by
  refine ⟨_, by unfold find_top_windiest_days top_from_site_rows; rw [if_pos h],
    ?_, ?_, ?_, ?_⟩
  · rw [List.length_map, List.length_take, (List.perm_insertionSort _ _).length_eq,
      siteDaily, List.length_map, dateKeys, (List.perm_insertionSort _ _).length_eq]
  · refine List.pairwise_map.mpr ?_
    refine List.Pairwise.imp (fun h => h) ?_
    exact List.Pairwise.sublist (List.take_sublist _ _)
      (List.sorted_insertionSort topLe (siteDaily _))
  · rw [map_date_map_top, List.map_take]
    refine List.Nodup.sublist (List.take_sublist _ _) ?_
    have hperm := (List.perm_insertionSort topLe (siteDaily
      ((load_and_clean_data raw).filter (fun r => r.origin == site)))).map Prod.fst
    refine hperm.nodup_iff.mpr ?_
    rw [siteDaily, map_fst_map_pair]
    exact (dateKeys_lt _).imp (fun h => ne_of_lt h)
  · intro rec hrec
    obtain ⟨p, _, rfl⟩ := List.mem_map.mp hrec
    rfl

/-- Witness for C3 at a one-row raw table, ranking JFK with n = 1. -/
theorem C3_witness :
    0 < 1 ∧
    ((load_and_clean_data [sampleRow]).filter (fun r => r.origin == "JFK")).all
        validRowDate = true ∧
      (∃ out, find_top_windiest_days (load_and_clean_data [sampleRow]) "JFK" 1 =
          Except.ok out ∧
        out.length = min 1
          ((((load_and_clean_data [sampleRow]).filter (fun r => r.origin == "JFK")).map
            (fun r => mkDate r.year r.month r.day)).dedup).length ∧
        out.Pairwise (fun a b => b.Wind_Speed_ms ≤ a.Wind_Speed_ms) ∧
        (out.map (fun rec => rec.Date)).Nodup ∧
        ∀ rec ∈ out, rec.Airport = "JFK") :=
  ⟨by decide, by decide, C3_top_n [sampleRow] "JFK" 1 (by decide) (by decide)⟩

/-- C10: among days of exactly equal mean speed the ranker keeps the
earliest dates and lists them in ascending date order: the output is
sorted by strictly descending mean refined by strictly ascending date,
and any date of the site that was left out while some kept row has the
same mean is later than that kept row's date. -/
theorem C10_ties_keep_earliest (raw : List Row) (site : String) (n : Nat)
    (h : ((load_and_clean_data raw).filter (fun r => r.origin == site)).all
      validRowDate = true) :
    ∃ out, find_top_windiest_days (load_and_clean_data raw) site n = Except.ok out ∧
      out.Pairwise (fun a b => b.Wind_Speed_ms < a.Wind_Speed_ms ∨
        (b.Wind_Speed_ms = a.Wind_Speed_ms ∧ a.Date < b.Date)) ∧
      ∀ rec ∈ out,
        ∀ r ∈ (load_and_clean_data raw).filter (fun r => r.origin == site),
          mkDate r.year r.month r.day ∉ out.map (fun q => q.Date) →
          mean (groupSpeeds (dateGroup ((load_and_clean_data raw).filter
            (fun r => r.origin == site)) (mkDate r.year r.month r.day))) =
              rec.Wind_Speed_ms →
          rec.Date < mkDate r.year r.month r.day := by
  refine ⟨_, by unfold find_top_windiest_days top_from_site_rows; rw [if_pos h],
    ?_, ?_⟩
  · refine List.pairwise_map.mpr ?_
    refine List.Pairwise.imp (fun h => h) ?_
    exact List.Pairwise.sublist (List.take_sublist _ _)
      (insertionSort_topLex _ (siteDaily_fst_lt _))
  · intro rec hrec r hr hknot hmean
    obtain ⟨p, hp, rfl⟩ := List.mem_map.mp hrec
    have hk2 : mkDate r.year r.month r.day ∈ dateKeys ((load_and_clean_data raw).filter
        (fun r => r.origin == site)) :=
      ((List.perm_insertionSort _ _).mem_iff).mpr
        (List.mem_dedup.mpr (List.mem_map_of_mem _ hr))
    have hqs : (mkDate r.year r.month r.day,
        mean (groupSpeeds (dateGroup ((load_and_clean_data raw).filter
          (fun r => r.origin == site)) (mkDate r.year r.month r.day)))) ∈
        List.insertionSort topLe (siteDaily ((load_and_clean_data raw).filter
          (fun r => r.origin == site))) :=
      ((List.perm_insertionSort _ _).mem_iff).mpr (List.mem_map_of_mem _ hk2)
    have hlex := insertionSort_topLex _ (siteDaily_fst_lt
      ((load_and_clean_data raw).filter (fun r => r.origin == site)))
    rw [← List.take_append_drop n (List.insertionSort topLe (siteDaily _))] at hqs hlex
    rcases List.mem_append.mp hqs with hin | hin
    · exact absurd (List.mem_map.mpr ⟨_, List.mem_map.mpr ⟨_, hin, rfl⟩, rfl⟩) hknot
    · have hpq := (List.pairwise_append.mp hlex).2.2 p hp _ hin
      rcases hpq with h1 | ⟨_, h2⟩
      · exact absurd h1 (by rw [hmean]; exact lt_irrefl _)
      · exact h2

/-- Witness for C10 at a one-row raw table, ranking JFK with n = 1. -/
theorem C10_witness :
    ((load_and_clean_data [sampleRow]).filter (fun r => r.origin == "JFK")).all
        validRowDate = true ∧
      (∃ out, find_top_windiest_days (load_and_clean_data [sampleRow]) "JFK" 1 =
          Except.ok out ∧
        out.Pairwise (fun a b => b.Wind_Speed_ms < a.Wind_Speed_ms ∨
          (b.Wind_Speed_ms = a.Wind_Speed_ms ∧ a.Date < b.Date)) ∧
        ∀ rec ∈ out,
          ∀ r ∈ (load_and_clean_data [sampleRow]).filter (fun r => r.origin == "JFK"),
            mkDate r.year r.month r.day ∉ out.map (fun q => q.Date) →
            mean (groupSpeeds (dateGroup ((load_and_clean_data [sampleRow]).filter
              (fun r => r.origin == "JFK")) (mkDate r.year r.month r.day))) =
                rec.Wind_Speed_ms →
            rec.Date < mkDate r.year r.month r.day) :=
  ⟨by decide, C10_ties_keep_earliest [sampleRow] "JFK" 1 (by decide)⟩

/-- C9: the pipeline is deterministic — two runs on the same unchanged
input produce identical daily, monthly and top-N tables (every grouping
is explicitly sorted and the ranking tie-break is fixed, so the model is
a pure function of the input). -/
theorem C9_deterministic (raw : List Row)
    (r₁ r₂ : Except String (List DailyRecord × List MonthlyRow × List TopDayRecord))
    (h₁ : prepare_data_for_tableau raw = r₁) (h₂ : prepare_data_for_tableau raw = r₂) :
    r₁ = r₂ :=
  h₁.symm.trans h₂

/-- Witness for C9 at a one-row raw table. -/
theorem C9_witness :
    prepare_data_for_tableau [sampleRow] = prepare_data_for_tableau [sampleRow] :=
  C9_deterministic [sampleRow] _ _ rfl rfl

/-- C8: the two row filters of the cleaning stage commute — filtering by
known site and then by present wind speed gives the same cleaned table as
filtering in the opposite order. -/
theorem C8_filters_commute (raw : List Row) :
    load_and_clean_data raw = clean_filters_swapped raw := by
  simp only [load_and_clean_data, clean_filters_swapped, List.filter_filter]
  rw [List.filter_congr (fun r _ => Bool.and_comm _ _)]

end DataPrep
